import Mathlib

/-!
Verification of the policy-compliance-checker pipeline.

Shallow embedding of the core document-to-verdict logic:
* `src/app.py` — `wait_for_rate_limit`, `analyze_document` (retry loop, error
  classification, response validation/repair, fallback findings) and the audit
  batch-processing loop with its `compliance_rate` aggregation.
* `src/unnamed/part_000` — the retrieval-scorer audit loop (keyword evidence
  counting and the fixed verdict thresholds).
* The Chunker contract (the splitter implementation is a library that is not
  part of the sources), modelled from the specification.
-/

/-! ## String helpers (executable models of the Python string operations) -/

/-- Prefix test: `listStarts hay needle` is true when `needle` is a prefix of `hay`. -/
def listStarts : List Char → List Char → Bool
  | _, [] => true
  | [], _ :: _ => false
  | a :: hs, b :: ns => a == b && listStarts hs ns

/-- Substring test: `listHasSub needle hay` is true when `needle` occurs contiguously in `hay`. -/
def listHasSub (needle : List Char) : List Char → Bool
  | [] => needle.isEmpty
  | c :: rest => listStarts (c :: rest) needle || listHasSub needle rest

/-- Python's `needle in hay` substring test. -/
def strContains (hay needle : String) : Bool :=
  listHasSub needle.toList hay.toList

/-- Python's `str.lower()` (ASCII case folding, as used by the sources). -/
def strLower (s : String) : String :=
  String.mk (s.toList.map Char.toLower)

/-- Python's `str.upper()` (ASCII case folding, as used by the sources). -/
def strUpper (s : String) : String :=
  String.mk (s.toList.map Char.toUpper)

/-- Accumulator loop for `pySplit`: split on whitespace runs, drop empties. -/
def wordsAux : List Char → List Char → List String
  | [], acc => if acc.isEmpty then [] else [String.mk acc.reverse]
  | c :: rest, acc =>
    if c.isWhitespace then
      if acc.isEmpty then wordsAux rest []
      else String.mk acc.reverse :: wordsAux rest []
    else wordsAux rest (c :: acc)

/-- Python's argumentless `str.split()`: split on whitespace runs, no empties. -/
def pySplit (s : String) : List String :=
  wordsAux s.toList []

/-! ## RetrievalScorer (src/unnamed/part_000, run_audit scoring loop) -/

/-- Evidence counting exactly as in the source
(`evidence = sum(1 for doc in docs if any(kw in doc.page_content.lower() for kw in keywords))`
with `keywords = rule["description"].split()`): the keywords are the raw
(not lowercased) whitespace tokens of the rule description, each tested as a
substring of the lowercased chunk text; a chunk counts once no matter how many
keywords it contains. -/
def ruleEvidence (description : String) (docs : List String) : Nat :=
  let keywords := pySplit description
  docs.countP (fun doc => keywords.any (fun kw => strContains (strLower doc) kw))

/-- Evidence counting as the specification words it ("tokenize rule.description
into lowercase keyword tokens; evidence = count of retrieved chunks containing
at least one keyword token (case-insensitive substring match)"): identical to
`ruleEvidence` except that the keyword tokens are lowercased, making the match
case-insensitive. Used to compare the source behaviour with the spec. -/
def ruleEvidenceSpec (description : String) (docs : List String) : Nat :=
  let keywords := (pySplit description).map strLower
  docs.countP (fun doc => keywords.any (fun kw => strContains (strLower doc) kw))

/-- Verdict status from the evidence count
(`status = "COMPLIANT" if evidence >= 3 else "PARTIAL" if evidence >= 1 else "NON_COMPLIANT"`). -/
def scoreStatus (evidence : Nat) : String :=
  if evidence ≥ 3 then "COMPLIANT" else if evidence ≥ 1 then "PARTIAL" else "NON_COMPLIANT"

/-- Confidence from the evidence count
(`confidence = 0.8 if evidence >= 3 else 0.5 if evidence >= 1 else 0.3`). -/
def scoreConfidence (evidence : Nat) : ℚ :=
  if evidence ≥ 3 then 0.8 else if evidence ≥ 1 then 0.5 else 0.3

/-! ## ComplianceReport aggregation (src/app.py lines 502-503) -/

/-- Line 503: `compliance_rate = int((total_passed / total_checks * 100)) if total_checks > 0 else 0`,
with the Python float division and truncation modelled as exact rational
truncation, i.e. natural-number floor division. -/
def complianceRate (passed totalChecks : Nat) : Nat :=
  if 0 < totalChecks then passed * 100 / totalChecks else 0

/-! ## Rate limiting (src/app.py, wait_for_rate_limit) -/

/-- The function `wait_for_rate_limit` over an idealised clock: given the process-wide
`last_request_time` and the current time, sleep `min_delay - (now - last)` when
less than `min_delay` has elapsed, then stamp the (post-sleep) current time as
the new `last_request_time`.  Returns the time at which the outbound request is
issued, which is also the updated timestamp. -/
def wait_for_rate_limit (minDelay last now : ℚ) : ℚ :=
  if now - last < minDelay then now + (minDelay - (now - last)) else now

/-- The sequence of outbound-request times in an audit run: `deltas` are the
times the caller spends between a request and arriving at the next gated call
(arbitrary rationals); each call goes through `wait_for_rate_limit`, which both
delays the request and updates the shared timestamp. -/
def requestTimes (minDelay : ℚ) : ℚ → List ℚ → List ℚ
  | _, [] => []
  | last, delta :: rest =>
    let t := wait_for_rate_limit minDelay last (last + delta)
    t :: requestTimes minDelay t rest

/-! ## ModelAnalyzer (src/app.py, analyze_document) -/

/-- A compliance rule as used by `analyze_document` (name and description,
from the `COMPLIANCE_RULES` entries). -/
structure Rule where
  name : String
  description : String
deriving DecidableEq, Repr

/-- A finding as returned by the pipeline: rule name, status, details. -/
structure Finding where
  rule : String
  status : String
  details : String
deriving DecidableEq, Repr

/-- A finding as found in the parsed JSON response: each of the three dict
keys may be absent. -/
structure RawFinding where
  rule : Option String
  status : Option String
  details : Option String
deriving DecidableEq, Repr

/-- A parsed JSON response: the `findings` key may be absent. -/
structure RawResult where
  findings : Option (List RawFinding)
deriving DecidableEq, Repr

/-- Status repair (line 192-193): a status outside PASS/FAIL/WARNING is
replaced by WARNING; a valid status is kept. -/
def coerceStatus (s : String) : String :=
  if s ∈ ["PASS", "FAIL", "WARNING"] then s else "WARNING"

/-- The per-finding validation loop (lines 189-193): raise
ValueError("Finding missing required fields") on the first finding missing one
of the three keys; otherwise repair each status and keep every finding. -/
def repairFindings : List RawFinding → Except String (List Finding)
  | [] => .ok []
  | f :: rest =>
    match f.rule, f.status, f.details with
    | some r, some s, some d =>
      match repairFindings rest with
      | .ok out => .ok (⟨r, coerceStatus s, d⟩ :: out)
      | .error m => .error m
    | _, _, _ => .error "Finding missing required fields"

/-- Response-structure validation (lines 179-193): missing `findings` key,
empty findings list, or a finding missing a required field raise a ValueError
(whose message feeds the generic exception handler); otherwise the repaired
findings are returned. -/
def validateResult (r : RawResult) : Except String (List Finding) :=
  match r.findings with
  | none => .error "Response missing \x27findings\x27 key"
  | some fs =>
    if fs.length = 0 then .error "No findings in response"
    else repairFindings fs

/-- Quota / rate-limit signature (line 228): `"429" in str(e)` or one of
"quota", "rate limit", "resource exhausted" in the lowered message. -/
def isQuotaMsg (m : String) : Bool :=
  strContains m "429" || strContains (strLower m) "quota" ||
    strContains (strLower m) "rate limit" || strContains (strLower m) "resource exhausted"

/-- Authentication signature (line 243): "api key", "invalid" or
"authentication" in the lowered message. -/
def isAuthMsg (m : String) : Bool :=
  strContains (strLower m) "api key" || strContains (strLower m) "invalid" ||
    strContains (strLower m) "authentication"

/-- File-upload signature (line 249): "file" together with "upload" or
"processing" in the lowered message. -/
def isFileMsg (m : String) : Bool :=
  strContains (strLower m) "file" &&
    (strContains (strLower m) "upload" || strContains (strLower m) "processing")

/-- What one iteration of the retry loop does after its body finished. -/
inductive StepDecision where
  | done (res : Option (List Finding))
  | retryAfter (wait : Nat)
deriving DecidableEq, Repr

/-- Outcome of one attempt body up to JSON parsing: a parsed response (which
still has to pass validation), a `json.JSONDecodeError`, or any other
exception carrying its message. -/
inductive AnalyzeOutcome where
  | parsed (resp : RawResult)
  | jsonError
  | exn (msg : String)
deriving DecidableEq, Repr

/-- The fallback findings returned when the last attempt fails to parse as
JSON (lines 211-219): one WARNING per rule of the requested set. -/
def fallbackFindings (rules : List Rule) : List Finding :=
  rules.map fun r =>
    ⟨r.name, "WARNING",
      "Analysis completed but response format was unclear. Manual review recommended."⟩

/-- The `except Exception` classification of `analyze_document`
(lines 224-270): quota errors back off `(2 ** attempt) * 10` seconds and retry
unless on the last attempt; authentication errors return None immediately;
file errors retry after 10 seconds; anything else retries after 5 seconds;
every exhausted branch returns None. -/
def classifyExn (attempt : Nat) (isLast : Bool) (m : String) : StepDecision :=
  if isQuotaMsg m then
    if isLast then .done none else .retryAfter (2 ^ attempt * 10)
  else if isAuthMsg m then .done none
  else if isFileMsg m then
    if isLast then .done none else .retryAfter 10
  else if isLast then .done none else .retryAfter 5

/-- One iteration of the `for attempt in range(max_retries)` loop of
`analyze_document`: a parsed response that validates returns it; a ValueError
from validation is handled by the generic exception classifier; a
JSONDecodeError returns the fallback findings on the last attempt and retries
after 3 seconds otherwise; any other exception is classified. -/
def stepDecide (rules : List Rule) (attempt : Nat) (isLast : Bool) :
    AnalyzeOutcome → StepDecision
  | .parsed resp =>
    match validateResult resp with
    | .ok fs => .done (some fs)
    | .error m => classifyExn attempt isLast m
  | .jsonError =>
    if isLast then .done (some (fallbackFindings rules)) else .retryAfter 3
  | .exn m => classifyExn attempt isLast m

/-- Result of `analyze_document`: the returned value (`none` models Python's
`None`), the between-attempt sleeps in order (seconds), and the number of loop
iterations executed. -/
structure AnalyzeRet where
  result : Option (List Finding)
  sleeps : List Nat
  attempts : Nat
deriving DecidableEq, Repr

/-- The retry loop of `analyze_document`, by recursion on the number of
remaining iterations; the current 0-based `attempt` index is
`maxRetries - remaining`.  Exhausting the loop falls through to `return None`
(line 286). -/
def analyzeGo (rules : List Rule) (maxRetries : Nat) (outcomes : Nat → AnalyzeOutcome) :
    Nat → AnalyzeRet
  | 0 => ⟨none, [], 0⟩
  | r + 1 =>
    match stepDecide rules (maxRetries - (r + 1)) (r == 0)
        (outcomes (maxRetries - (r + 1))) with
    | .done res => ⟨res, [], 1⟩
    | .retryAfter w =>
      let rest := analyzeGo rules maxRetries outcomes r
      ⟨rest.result, w :: rest.sleeps, rest.attempts + 1⟩

/-- The function `analyze_document(pdf_bytes, pdf_name, rules, max_retries)`: run the retry
loop; `outcomes i` is what attempt `i`'s body produced (the model-service
boundary is injected, as the spec's test-double requirement demands). -/
def analyzeDocument (rules : List Rule) (maxRetries : Nat)
    (outcomes : Nat → AnalyzeOutcome) : AnalyzeRet :=
  analyzeGo rules maxRetries outcomes maxRetries

/-! ## Audit batch loop (src/app.py lines 456-503) -/

/-- Accumulated state of the audit processing loop: per-document results and
the three status counters. -/
structure BatchState where
  results : List (String × List Finding)
  passed : Nat
  failed : Nat
  warnings : Nat
deriving DecidableEq, Repr

/-- Status counting (lines 478-485): `finding.get('status','WARNING').upper()`
bumps passed on PASS, failed on FAIL, warnings otherwise. -/
def countFinding (st : BatchState) (f : Finding) : BatchState :=
  let s := strUpper f.status
  if s = "PASS" then { st with passed := st.passed + 1 }
  else if s = "FAIL" then { st with failed := st.failed + 1 }
  else { st with warnings := st.warnings + 1 }

/-- Processing of one uploaded document (lines 465-495): a successful
`analyze_document` result has its findings counted and appended to the
results; a `None` result only logs an error and the loop continues. -/
def processDoc (rules : List Rule) (maxRetries : Nat) (st : BatchState)
    (doc : String × (Nat → AnalyzeOutcome)) : BatchState :=
  match (analyzeDocument rules maxRetries doc.2).result with
  | some findings =>
    let st2 := findings.foldl countFinding st
    { st2 with results := st2.results ++ [(doc.1, findings)] }
  | none => st

/-- The audit processing loop over all uploaded documents. -/
def processBatch (rules : List Rule) (maxRetries : Nat)
    (docs : List (String × (Nat → AnalyzeOutcome))) (st : BatchState) : BatchState :=
  docs.foldl (processDoc rules maxRetries) st

/-- The stored results record (lines 502-513), reduced to its numeric part:
`compliance_rate` from the totals, plus the three counters. -/
structure Report where
  compliance_rate : Nat
  passed : Nat
  failed : Nat
  warnings : Nat
deriving DecidableEq, Repr

/-- Build the report from the final batch state
(`total_checks = total_passed + total_failed + total_warnings`). -/
def buildReport (st : BatchState) : Report :=
  ⟨complianceRate st.passed (st.passed + st.failed + st.warnings),
    st.passed, st.failed, st.warnings⟩

/-! ## Chunker (spec §4.2; the splitter implementation is a library, not in src) -/

/-- Modelled from the spec: the Chunker contract of §4.2 — the
`RecursiveCharacterTextSplitter` used by `src/pipeline.py` and
`src/unnamed/part_000` is a third-party implementation that is not part of the
sources, so the greedy-window contract is taken from the specification's
words: "Windows are taken greedily: each chunk after the first starts at
`previous_start + (chunk_size - chunk_overlap)`; boundary chunk is whatever
remains (may be shorter than chunk_size)"; the empty text yields no chunks. -/
def chunkWindows (size ov : Nat) (t : List Char) : List (List Char) :=
  if h : t.length ≤ size ∨ size ≤ ov then
    if t.isEmpty then [] else [t]
  else
    t.take size :: chunkWindows size ov (t.drop (size - ov))
termination_by t.length
decreasing_by
  push_neg at h
  simp only [List.length_drop]
  omega

/-- Concatenation of the tail chunks with the leading `ov` overlap characters
removed from each. -/
def joinTail (ov : Nat) : List (List Char) → List Char
  | [] => []
  | c :: cs => c.drop ov ++ joinTail ov cs

/-- Concatenation of the chunk windows with the overlap removed: the first
chunk whole, every later chunk without its leading `ov` characters. -/
def joinOv (ov : Nat) : List (List Char) → List Char
  | [] => []
  | c :: cs => c ++ joinTail ov cs

/-! ## Concrete instances used by witnesses and counterexamples -/

/-- Two rules from `COMPLIANCE_RULES`, for the C1 witness. -/
def rulesTwo : List Rule :=
  [⟨"Data Privacy", "GDPR and data protection compliance"⟩,
   ⟨"Financial Reporting", "SOX and financial disclosure requirements"⟩]

/-- An attempt oracle whose every attempt fails JSON parsing. -/
def jsonFailOutcomes : Nat → AnalyzeOutcome := fun _ => .jsonError

/-- Findings with one invalid status, for the C5 witness. -/
def maybeFindings : List RawFinding :=
  [⟨some "Data Privacy", some "MAYBE", some "unclear"⟩,
   ⟨some "Financial Reporting", some "PASS", some "ok"⟩]

/-- An attempt oracle raising an authentication error on every attempt. -/
def authOutcomes : Nat → AnalyzeOutcome := fun _ => .exn "invalid api key"

/-- A response for a successfully analysed document. -/
def docOkResp : RawResult := ⟨some [⟨some "Data Privacy", some "PASS", some "ok"⟩]⟩

/-- An attempt oracle that succeeds on the first attempt. -/
def docOkOutcomes : Nat → AnalyzeOutcome := fun _ => .parsed docOkResp

/-- An attempt oracle with quota errors on attempts 0 and 1, success on 2. -/
def quotaOutcomes : Nat → AnalyzeOutcome := fun i =>
  if i = 0 then .exn "429 quota exceeded"
  else if i = 1 then .exn "Rate limit hit" else .parsed docOkResp

/-- The findings of `docOkResp` after validation. -/
def docOkFindings : List Finding := [⟨"Data Privacy", "PASS", "ok"⟩]

/-- Sample text for the C9 witness. -/
def chunkText : List Char := "abcdefgh".toList

/-! ## Theorems -/

/-- Claim C2: the RetrievalScorer verdict is a function of the evidence count
with exactly the spec's boundaries: evidence ≥ 3 yields COMPLIANT with
confidence 0.8; 1 ≤ evidence < 3 yields PARTIAL with confidence 0.5;
evidence = 0 yields NON_COMPLIANT with confidence 0.3. -/
theorem scorer_thresholds (e : Nat) :
    (3 ≤ e → scoreStatus e = "COMPLIANT" ∧ scoreConfidence e = 0.8) ∧
    ((1 ≤ e ∧ e < 3) → scoreStatus e = "PARTIAL" ∧ scoreConfidence e = 0.5) ∧
    (e = 0 → scoreStatus e = "NON_COMPLIANT" ∧ scoreConfidence e = 0.3) := by
  refine ⟨fun h => ?_, fun h => ?_, fun h => ?_⟩
  · simp [scoreStatus, scoreConfidence, h]
  · have h3 : ¬ e ≥ 3 := by omega
    have h1 : e ≥ 1 := h.1
    simp [scoreStatus, scoreConfidence, h3, h1]
  · subst h
    simp [scoreStatus, scoreConfidence]

/-- Witness for C2 at the three boundary evidence counts 3, 1 and 0. -/
theorem scorer_thresholds_witness :
    (scoreStatus 3 = "COMPLIANT" ∧ scoreConfidence 3 = 0.8) ∧
    (scoreStatus 1 = "PARTIAL" ∧ scoreConfidence 1 = 0.5) ∧
    (scoreStatus 0 = "NON_COMPLIANT" ∧ scoreConfidence 0 = 0.3) :=
  ⟨(scorer_thresholds 3).1 (by decide),
   (scorer_thresholds 1).2.1 (by decide),
   (scorer_thresholds 0).2.2 rfl⟩

/-- Claim C3 (code bug, evaluation at the failing input): the source does not
lowercase the keyword tokens, so the rule-003 keyword "MFA" never matches the
lowercased chunk text and the code counts 0 evidence for a chunk that contains
"MFA", while the spec's case-insensitive matching counts 1. -/
theorem evidence_keyword_case_eval :
    ruleEvidence "MFA mandatory users" ["MFA enabled"] = 0 ∧
    ruleEvidenceSpec "MFA mandatory users" ["MFA enabled"] = 1 := by
  decide

/-- Claim C4 (counterexample): with passed = 2 of total_checks = 3 the code's
`int()` truncation gives 66, while the claim's `round(100 * passed / total)`
gives 67. -/
theorem compliance_rate_round_cex :
    complianceRate 2 3 = 66 ∧
    ((complianceRate 2 3 : ℤ) ≠ round ((100 * (2 : ℚ)) / 3)) := by
  constructor
  · rfl
  · have h : round ((100 * (2 : ℚ)) / 3) = 67 := by
      rw [round_eq, show (100 * (2 : ℚ)) / 3 + 1 / 2 = 403 / 6 by norm_num,
        Int.floor_eq_iff]
      constructor <;> norm_num
    rw [h]
    decide

/-- Claim C4 (amended): the compliance rate is the truncation (floor) of
`100 * passed / total_checks` when there is at least one check, and 0 when
there are zero checks (no division error). -/
theorem compliance_rate_trunc (passed total : Nat) :
    (0 < total →
      complianceRate passed total * total ≤ passed * 100 ∧
      passed * 100 < (complianceRate passed total + 1) * total) ∧
    complianceRate passed 0 = 0 := by
  constructor
  · intro ht
    simp only [complianceRate, if_pos ht]
    constructor
    · exact Nat.div_mul_le_self _ _
    · have hmod := Nat.div_add_mod (passed * 100) total
      have hlt := Nat.mod_lt (passed * 100) ht
      calc passed * 100 = total * (passed * 100 / total) + passed * 100 % total := hmod.symm
        _ < total * (passed * 100 / total) + total := by omega
        _ = (passed * 100 / total + 1) * total := by ring
  · simp [complianceRate]

/-- Witness for C4's amended theorem at passed = 2, total = 3 (rate 66) and at
zero total checks. -/
theorem compliance_rate_trunc_witness :
    (complianceRate 2 3 * 3 ≤ 2 * 100 ∧ 2 * 100 < (complianceRate 2 3 + 1) * 3) ∧
    complianceRate 2 0 = 0 :=
  ⟨(compliance_rate_trunc 2 3).1 (by decide), (compliance_rate_trunc 2 0).2⟩

/-- The request time produced by `wait_for_rate_limit` is at least `minDelay`
after the previous request timestamp, on every branch. -/
theorem wait_gap (minDelay last now : ℚ) :
    minDelay ≤ wait_for_rate_limit minDelay last now - last := by
  unfold wait_for_rate_limit
  by_cases h : now - last < minDelay
  · rw [if_pos h]; linarith
  · rw [if_neg h]; linarith [not_lt.mp h]

/-- Claim C8: across all documents of an audit run, consecutive outbound
request times produced by the process-wide `wait_for_rate_limit` gate are never
less than `min_delay` apart: each call blocks until `min_delay` has elapsed
since the shared last-request timestamp, which is then updated. -/
theorem rate_limit_min_gap (minDelay last : ℚ) (deltas : List ℚ) :
    (requestTimes minDelay last deltas).Chain' (fun a b => minDelay ≤ b - a) := by
  induction deltas generalizing last with
  | nil => simp [requestTimes]
  | cons delta rest ih =>
    rw [requestTimes, List.chain'_cons']
    refine ⟨?_, ih _⟩
    intro b hb
    cases rest with
    | nil => simp [requestTimes] at hb
    | cons d2 r2 =>
      rw [requestTimes] at hb
      simp only [List.head?_cons, Option.mem_def, Option.some.injEq] at hb
      subst hb
      exact wait_gap _ _ _

/-- One-step unfolding of the retry loop. -/
theorem analyzeGo_succ (rules : List Rule) (maxRetries : Nat)
    (outcomes : Nat → AnalyzeOutcome) (r : Nat) :
    analyzeGo rules maxRetries outcomes (r + 1) =
      match stepDecide rules (maxRetries - (r + 1)) (r == 0)
          (outcomes (maxRetries - (r + 1))) with
      | .done res => ⟨res, [], 1⟩
      | .retryAfter w =>
        let rest := analyzeGo rules maxRetries outcomes r
        ⟨rest.result, w :: rest.sleeps, rest.attempts + 1⟩ := rfl

/-- One-step unfolding of the retry loop when the iteration terminates. -/
theorem analyzeGo_done (rules : List Rule) (maxRetries : Nat)
    (outcomes : Nat → AnalyzeOutcome) (r : Nat) (res : Option (List Finding))
    (h : stepDecide rules (maxRetries - (r + 1)) (r == 0)
        (outcomes (maxRetries - (r + 1))) = .done res) :
    analyzeGo rules maxRetries outcomes (r + 1) = ⟨res, [], 1⟩ := by
  rw [analyzeGo_succ, h]

/-- One-step unfolding of the retry loop when the iteration retries after a
sleep of `w` seconds. -/
theorem analyzeGo_retry (rules : List Rule) (maxRetries : Nat)
    (outcomes : Nat → AnalyzeOutcome) (r w : Nat)
    (h : stepDecide rules (maxRetries - (r + 1)) (r == 0)
        (outcomes (maxRetries - (r + 1))) = .retryAfter w) :
    analyzeGo rules maxRetries outcomes (r + 1) =
      ⟨(analyzeGo rules maxRetries outcomes r).result,
        w :: (analyzeGo rules maxRetries outcomes r).sleeps,
        (analyzeGo rules maxRetries outcomes r).attempts + 1⟩ := by
  rw [analyzeGo_succ, h]

/-- With every attempt producing a JSONDecodeError, the retry loop ends in the
fallback findings: by induction on the remaining iterations. -/
theorem analyzeGo_all_json (rules : List Rule) (maxRetries : Nat)
    (outcomes : Nat → AnalyzeOutcome)
    (hout : ∀ i, i < maxRetries → outcomes i = .jsonError) :
    ∀ r, r + 1 ≤ maxRetries →
      (analyzeGo rules maxRetries outcomes (r + 1)).result =
        some (fallbackFindings rules) := by
  intro r
  induction r with
  | zero =>
    intro hle
    have h0 : outcomes (maxRetries - (0 + 1)) = .jsonError := hout _ (by omega)
    have hstep : stepDecide rules (maxRetries - (0 + 1)) ((0 : Nat) == 0)
        (outcomes (maxRetries - (0 + 1))) = .done (some (fallbackFindings rules)) := by
      rw [h0]; simp [stepDecide]
    rw [analyzeGo_done rules maxRetries outcomes 0 _ hstep]
  | succ n ih =>
    intro hle
    have h0 : outcomes (maxRetries - (n + 1 + 1)) = .jsonError := hout _ (by omega)
    have hstep : stepDecide rules (maxRetries - (n + 1 + 1)) ((n + 1) == 0)
        (outcomes (maxRetries - (n + 1 + 1))) = .retryAfter 3 := by
      rw [h0]; simp [stepDecide]
    rw [analyzeGo_retry rules maxRetries outcomes (n + 1) 3 hstep]
    exact ih (by omega)

/-- Claim C1: if all `max_retries` attempts of `analyze_document` fail to
parse the model response as JSON, the function returns exactly one WARNING
finding per rule of the requested set, with details recommending manual
review — a finding per requested rule, never a partial list. -/
theorem analyze_fallback_per_rule (rules : List Rule) (maxRetries : Nat)
    (outcomes : Nat → AnalyzeOutcome) (h1 : 1 ≤ maxRetries)
    (h2 : ∀ i, i < maxRetries → outcomes i = .jsonError) :
    (analyzeDocument rules maxRetries outcomes).result = some (fallbackFindings rules) ∧
    (fallbackFindings rules).length = rules.length ∧
    ∀ f ∈ fallbackFindings rules,
      f.status = "WARNING" ∧
      f.details =
        "Analysis completed but response format was unclear. Manual review recommended." := by
  refine ⟨?_, ?_, ?_⟩
  · obtain ⟨r, rfl⟩ : ∃ r, maxRetries = r + 1 := ⟨maxRetries - 1, by omega⟩
    exact analyzeGo_all_json _ _ _ h2 r (le_refl _)
  · simp [fallbackFindings]
  · intro f hf
    simp only [fallbackFindings, List.mem_map] at hf
    obtain ⟨r, _, rfl⟩ := hf
    exact ⟨rfl, rfl⟩

/-- Witness for C1: two rules, `max_retries = 2`, every attempt a JSON parse
failure. -/
theorem analyze_fallback_witness :
    (analyzeDocument rulesTwo 2 jsonFailOutcomes).result = some (fallbackFindings rulesTwo) ∧
    (fallbackFindings rulesTwo).length = rulesTwo.length :=
  ⟨(analyze_fallback_per_rule rulesTwo 2 jsonFailOutcomes (by decide)
      (fun _ _ => rfl)).1,
   (analyze_fallback_per_rule rulesTwo 2 jsonFailOutcomes (by decide)
      (fun _ _ => rfl)).2.1⟩

/-- The repaired form of a finding whose three fields are present. -/
def repairedOf (f : RawFinding) : Finding :=
  ⟨f.rule.getD "", coerceStatus (f.status.getD ""), f.details.getD ""⟩

/-- When every finding has its three fields, the validation loop succeeds and
returns the repaired findings in order. -/
theorem repairFindings_all_fields (fs : List RawFinding)
    (hall : ∀ f ∈ fs, f.rule.isSome ∧ f.status.isSome ∧ f.details.isSome) :
    repairFindings fs = .ok (fs.map repairedOf) := by
  induction fs with
  | nil => rfl
  | cons f rest ih =>
    obtain ⟨hr, hs, hd⟩ := hall f (List.mem_cons_self f rest)
    obtain ⟨r, hr⟩ := Option.isSome_iff_exists.mp hr
    obtain ⟨s, hs⟩ := Option.isSome_iff_exists.mp hs
    obtain ⟨d, hd⟩ := Option.isSome_iff_exists.mp hd
    have ihr := ih (fun g hg => hall g (List.mem_cons_of_mem f hg))
    simp [repairFindings, hr, hs, hd, ihr, repairedOf]

/-- Claim C5: for a parsed response whose findings each have the fields rule,
status and details, validation succeeds and returns every finding (in order,
same length); a status outside PASS/FAIL/WARNING is coerced to WARNING while
rule and details are kept, and a valid status is returned unchanged. -/
theorem status_repair_retains (fs : List RawFinding) (hne : fs ≠ [])
    (hall : ∀ f ∈ fs, f.rule.isSome ∧ f.status.isSome ∧ f.details.isSome) :
    validateResult ⟨some fs⟩ = .ok (fs.map repairedOf) ∧
    (∀ s, s ∉ ["PASS", "FAIL", "WARNING"] → coerceStatus s = "WARNING") ∧
    (∀ s, s ∈ ["PASS", "FAIL", "WARNING"] → coerceStatus s = s) := by
  refine ⟨?_, ?_, ?_⟩
  · have hlen : fs.length ≠ 0 := fun h => hne (List.length_eq_zero.mp h)
    simp only [validateResult, if_neg hlen]
    exact repairFindings_all_fields fs hall
  · intro s hs
    simp [coerceStatus, hs]
  · intro s hs
    simp [coerceStatus, hs]

/-- Witness for C5: a response with a "MAYBE" status keeps the finding, with
the status coerced to WARNING and the second finding returned unchanged. -/
theorem status_repair_witness :
    validateResult ⟨some maybeFindings⟩ =
      .ok [⟨"Data Privacy", "WARNING", "unclear"⟩,
           ⟨"Financial Reporting", "PASS", "ok"⟩] := by
  rw [(status_repair_retains maybeFindings (by decide) (by decide)).1]
  rfl

/-- An exception whose message matches the authentication signatures but none
of the quota signatures makes the current iteration return None immediately,
whatever the attempt index and whether or not retries remain. -/
theorem classifyExn_auth (attempt : Nat) (isL : Bool) (m : String)
    (h3 : isAuthMsg m = true) (h4 : isQuotaMsg m = false) :
    classifyExn attempt isL m = .done none := by
  simp [classifyExn, h3, h4]

/-- An authentication error on the first attempt makes `analyze_document`
return None with no sleeps and exactly one iteration executed. -/
theorem analyzeDocument_auth_first (rules : List Rule) (maxRetries : Nat)
    (outcomes : Nat → AnalyzeOutcome) (msg : String) (h1 : 1 ≤ maxRetries)
    (h2 : outcomes 0 = .exn msg) (h3 : isAuthMsg msg = true)
    (h4 : isQuotaMsg msg = false) :
    analyzeDocument rules maxRetries outcomes = ⟨none, [], 1⟩ := by
  obtain ⟨r, rfl⟩ : ∃ r, maxRetries = r + 1 := ⟨maxRetries - 1, by omega⟩
  have hz : r + 1 - (r + 1) = 0 := by omega
  have hstep : stepDecide rules (r + 1 - (r + 1)) (r == 0)
      (outcomes (r + 1 - (r + 1))) = .done none := by
    rw [hz, h2]
    exact classifyExn_auth _ _ _ h3 h4
  exact analyzeGo_done rules (r + 1) outcomes r none hstep

/-- Claim C10: error classification is by unanchored substring match in a
fixed order — an exception whose lowered message contains "invalid" and does
not match a quota signature is treated as an authentication failure:
`analyze_document` returns None on the very attempt where it occurs, with no
sleep and no further attempt, even when retries remain. -/
theorem invalid_substring_no_retry (rules : List Rule) (maxRetries : Nat)
    (outcomes : Nat → AnalyzeOutcome) (msg : String) (h1 : 1 ≤ maxRetries)
    (h2 : outcomes 0 = .exn msg)
    (h3 : strContains (strLower msg) "invalid" = true)
    (h4 : isQuotaMsg msg = false) :
    analyzeDocument rules maxRetries outcomes = ⟨none, [], 1⟩ := by
  have hauth : isAuthMsg msg = true := by
    simp [isAuthMsg, h3]
  exact analyzeDocument_auth_first rules maxRetries outcomes msg h1 h2 hauth h4

/-- An attempt oracle raising a transient-looking "invalid response" error. -/
def invalidRespOutcomes : Nat → AnalyzeOutcome := fun _ => .exn "invalid response"

/-- Witness for C10: the message "invalid response" (transient, unrelated to
credentials) still aborts with no retry on the first of two attempts. -/
theorem invalid_no_retry_witness :
    analyzeDocument [] 2 invalidRespOutcomes = ⟨none, [], 1⟩ :=
  invalid_substring_no_retry [] 2 invalidRespOutcomes "invalid response"
    (by decide) rfl (by decide) (by decide)

/-- Claim C6 (counterexample): with a batch of two documents where the first
raises an authentication error ("invalid api key"), the audit loop still
processes the second document — its findings appear in the results — so the
batch does not abort. -/
theorem auth_batch_continues_cex :
    (processBatch rulesTwo 2 [("doc1", authOutcomes), ("doc2", docOkOutcomes)]
        ⟨[], 0, 0, 0⟩).results = [("doc2", docOkFindings)] := by
  rfl

/-- Claim C6 (amended): an error matching the authentication signatures (and
none of the quota signatures, which are checked first) is never retried —
`analyze_document` returns None on the attempt where it occurs, with no
backoff sleeps — but the batch does not abort: the audit loop records nothing
for the failed document and continues with the remaining documents exactly as
if the document had not been there. -/
theorem auth_no_retry_batch_continues (rules : List Rule) (maxRetries : Nat)
    (outcomes : Nat → AnalyzeOutcome) (msg name : String)
    (rest : List (String × (Nat → AnalyzeOutcome))) (st : BatchState)
    (h1 : 1 ≤ maxRetries) (h2 : outcomes 0 = .exn msg)
    (h3 : isAuthMsg msg = true) (h4 : isQuotaMsg msg = false) :
    analyzeDocument rules maxRetries outcomes = ⟨none, [], 1⟩ ∧
    processBatch rules maxRetries ((name, outcomes) :: rest) st =
      processBatch rules maxRetries rest st := by
  have hdoc := analyzeDocument_auth_first rules maxRetries outcomes msg h1 h2 h3 h4
  refine ⟨hdoc, ?_⟩
  simp [processBatch, processDoc, hdoc]

/-- Witness for C6's amended theorem: "invalid api key" on document 1 of two
returns None in one attempt and leaves the batch fold equal to the fold over
the remaining document. -/
theorem auth_no_retry_witness :
    analyzeDocument rulesTwo 2 authOutcomes = ⟨none, [], 1⟩ ∧
    processBatch rulesTwo 2 [("doc1", authOutcomes), ("doc2", docOkOutcomes)]
        ⟨[], 0, 0, 0⟩ =
      processBatch rulesTwo 2 [("doc2", docOkOutcomes)] ⟨[], 0, 0, 0⟩ :=
  auth_no_retry_batch_continues rulesTwo 2 authOutcomes "invalid api key" "doc1"
    [("doc2", docOkOutcomes)] ⟨[], 0, 0, 0⟩ (by decide) rfl (by decide) (by decide)

/-- Claim C7: a quota error on attempt `attempt` with retries remaining sleeps
exactly `10 * 2 ^ attempt` seconds before the next attempt; with
`max_retries = 3`, quota errors on the first two attempts and success on the
third return the validated findings, with the backoff sleeps being exactly
`[10 * 2 ^ 0, 10 * 2 ^ 1]` and hence total wait at least
`10 * (2 ^ 0 + 2 ^ 1)`. -/
theorem quota_backoff_exact (rules : List Rule) (outcomes : Nat → AnalyzeOutcome)
    (m0 m1 : String) (resp : RawResult) (fs : List Finding)
    (h0 : outcomes 0 = .exn m0) (h1 : outcomes 1 = .exn m1)
    (h2 : outcomes 2 = .parsed resp)
    (hq0 : isQuotaMsg m0 = true) (hq1 : isQuotaMsg m1 = true)
    (hv : validateResult resp = .ok fs) :
    (analyzeDocument rules 3 outcomes).result = some fs ∧
    (analyzeDocument rules 3 outcomes).sleeps = [10 * 2 ^ 0, 10 * 2 ^ 1] ∧
    10 * (2 ^ 0 + 2 ^ 1) ≤ (analyzeDocument rules 3 outcomes).sleeps.sum := by
  have hstep0 : stepDecide rules (3 - (2 + 1)) (2 == 0) (outcomes (3 - (2 + 1))) =
      .retryAfter (2 ^ 0 * 10) := by
    rw [show (3 : Nat) - (2 + 1) = 0 by rfl, h0]
    simp [stepDecide, classifyExn, hq0]
  have hstep1 : stepDecide rules (3 - (1 + 1)) (1 == 0) (outcomes (3 - (1 + 1))) =
      .retryAfter (2 ^ 1 * 10) := by
    rw [show (3 : Nat) - (1 + 1) = 1 by rfl, h1]
    simp [stepDecide, classifyExn, hq1]
  have hstep2 : stepDecide rules (3 - (0 + 1)) ((0 : Nat) == 0) (outcomes (3 - (0 + 1))) =
      .done (some fs) := by
    rw [show (3 : Nat) - (0 + 1) = 2 by rfl, h2]
    simp [stepDecide, hv]
  have hfull : analyzeDocument rules 3 outcomes =
      ⟨some fs, [2 ^ 0 * 10, 2 ^ 1 * 10], 3⟩ := by
    show analyzeGo rules 3 outcomes 3 = _
    rw [show (3 : Nat) = 2 + 1 by rfl,
      analyzeGo_retry rules 3 outcomes 2 (2 ^ 0 * 10) hstep0,
      analyzeGo_retry rules 3 outcomes 1 (2 ^ 1 * 10) hstep1,
      analyzeGo_done rules 3 outcomes 0 (some fs) hstep2]
  rw [hfull]
  refine ⟨rfl, by norm_num, by norm_num⟩

/-- Witness for C7: quota messages "429 quota exceeded" and "Rate limit hit"
on attempts 0 and 1, a valid response on attempt 2. -/
theorem quota_backoff_witness :
    (analyzeDocument [] 3 quotaOutcomes).result = some docOkFindings ∧
    (analyzeDocument [] 3 quotaOutcomes).sleeps = [10 * 2 ^ 0, 10 * 2 ^ 1] ∧
    10 * (2 ^ 0 + 2 ^ 1) ≤ (analyzeDocument [] 3 quotaOutcomes).sleeps.sum :=
  quota_backoff_exact [] quotaOutcomes "429 quota exceeded" "Rate limit hit"
    docOkResp docOkFindings rfl rfl rfl (by decide) (by decide) rfl

/-- Unfolding equation for `chunkWindows`. -/
theorem chunkWindows_eq (size ov : Nat) (t : List Char) :
    chunkWindows size ov t =
      if h : t.length ≤ size ∨ size ≤ ov then
        if t.isEmpty then [] else [t]
      else t.take size :: chunkWindows size ov (t.drop (size - ov)) := by
  rw [chunkWindows]

/-- Dropping the overlap from every window (first included) and concatenating
yields the text without its first `ov` characters. -/
theorem joinTail_chunkWindows (size ov : Nat) (hov : ov < size) :
    ∀ n (t : List Char), t.length ≤ n →
      joinTail ov (chunkWindows size ov t) = t.drop ov := by
  intro n
  induction n with
  | zero =>
    intro t ht
    have ht0 : t = [] := by
      cases t with
      | nil => rfl
      | cons a b => simp at ht
    subst ht0
    rw [chunkWindows_eq]
    simp [joinTail]
  | succ n ih =>
    intro t ht
    rw [chunkWindows_eq]
    by_cases hc : t.length ≤ size ∨ size ≤ ov
    · rw [dif_pos hc]
      cases t with
      | nil => simp [joinTail]
      | cons a b => simp [joinTail]
    · rw [dif_neg hc]
      push_neg at hc
      obtain ⟨hlen, hov2⟩ := hc
      simp only [joinTail]
      rw [ih (t.drop (size - ov)) (by simp [List.length_drop]; omega)]
      rw [List.drop_take, List.drop_drop]
      have hds : t.drop (size - ov + ov) = (t.drop ov).drop (size - ov) := by
        rw [List.drop_drop]
        congr 1
        omega
      rw [hds, List.take_append_drop]

/-- Every window of `chunkWindows size ov t` starts at `i * (size - ov)`:
window `i` is `take size` of the text from that start position. -/
theorem chunkWindows_windows (size ov : Nat) (hov : ov < size) :
    ∀ n (t : List Char), t.length ≤ n →
      ∀ i, i < (chunkWindows size ov t).length →
        (chunkWindows size ov t)[i]? =
          some ((t.drop (i * (size - ov))).take size) := by
  intro n
  induction n with
  | zero =>
    intro t ht i hi
    have ht0 : t = [] := by
      cases t with
      | nil => rfl
      | cons a b => simp at ht
    subst ht0
    rw [chunkWindows_eq] at hi
    simp at hi
  | succ n ih =>
    intro t ht i hi
    by_cases hc : t.length ≤ size ∨ size ≤ ov
    · have hts : t.length ≤ size := by
        rcases hc with h | h
        · exact h
        · omega
      rw [chunkWindows_eq, dif_pos hc] at hi ⊢
      cases t with
      | nil => simp at hi
      | cons a b =>
        simp only [List.isEmpty_cons, Bool.false_eq_true, if_false,
          List.length_cons, List.length_nil] at hi
        have hi0 : i = 0 := by omega
        subst hi0
        simp [List.take_of_length_le hts]
    · have hcons : chunkWindows size ov t =
          t.take size :: chunkWindows size ov (t.drop (size - ov)) := by
        rw [chunkWindows_eq, dif_neg hc]
      push_neg at hc
      obtain ⟨hlen, hov2⟩ := hc
      rw [hcons] at hi ⊢
      cases i with
      | zero =>
        simp
      | succ i =>
        rw [List.getElem?_cons_succ]
        simp only [List.length_cons] at hi
        rw [ih (t.drop (size - ov)) (by simp [List.length_drop]; omega) i (by omega)]
        rw [List.drop_drop]
        have harith : size - ov + i * (size - ov) = (i + 1) * (size - ov) := by
          rw [Nat.succ_mul]
          exact Nat.add_comm _ _
        rw [harith]

/-- Claim C9: for every text and every chunk_size > chunk_overlap ≥ 0, the
Chunker produces greedy windows — window `i` starts at `i * (size - overlap)`,
i.e. each chunk after the first starts at the previous start plus
`(chunk_size - chunk_overlap)` — and concatenating the windows with the
overlap removed reconstructs the original text exactly. -/
theorem chunker_greedy_reconstruct (size ov : Nat) (hov : ov < size)
    (t : List Char) :
    (∀ i, i < (chunkWindows size ov t).length →
      (chunkWindows size ov t)[i]? =
        some ((t.drop (i * (size - ov))).take size)) ∧
    joinOv ov (chunkWindows size ov t) = t := by
  constructor
  · exact chunkWindows_windows size ov hov t.length t (le_refl _)
  · rw [chunkWindows_eq]
    by_cases hc : t.length ≤ size ∨ size ≤ ov
    · rw [dif_pos hc]
      cases t with
      | nil => rfl
      | cons a b => simp [joinOv, joinTail]
    · rw [dif_neg hc]
      push_neg at hc
      obtain ⟨hlen, hov2⟩ := hc
      simp only [joinOv]
      rw [joinTail_chunkWindows size ov hov (t.drop (size - ov)).length _ (le_refl _)]
      rw [List.drop_drop]
      rw [show size - ov + ov = size by omega]
      exact List.take_append_drop size t

/-- Witness for C9 at size 5, overlap 2 on an 8-character text. -/
theorem chunker_reconstruct_witness :
    joinOv 2 (chunkWindows 5 2 chunkText) = chunkText :=
  (chunker_greedy_reconstruct 5 2 (by decide) chunkText).2
